import Mathlib

/-!
Verification development for the Ball-Knowledge repository.

Part A embeds the frontend helper functions from
`frontend/src/components/battlefield/helpers.ts` and the match-list
processing in `frontend/src/app/page.tsx` (JS strings become `List Char`,
JS numbers become a tagged rational type `JSNum` so that NaN and the
infinities are representable, JS `Map`-based deduplication and stable
sorting become explicit list functions).

Part B models the backend upstream-fetch governor (Quota Ledger, Fetch
Gate, Snapshot Store, Snapshot Manager).  The backend Python sources are
not part of the checked-in tree (only the README documents them), so
those definitions are modelled from the spec, as marked in their doc
comments.
-/

namespace BallKnowledge

/-! ## Part A.1: JS number model and score helpers (helpers.ts) -/

/-- A JavaScript number as relevant to the score helpers: NaN, the two
infinities, or a finite value modelled as a rational. -/
inductive JSNum where
  | nan : JSNum
  | inf : JSNum
  | ninf : JSNum
  | finite (q : ℚ) : JSNum
deriving DecidableEq

/-- `Number.isFinite` on the `JSNum` model. -/
def jsIsFinite : JSNum → Bool
  | .finite _ => true
  | _ => false

/-- JavaScript `Math.round`: round half toward positive infinity,
`Math.round q = ⌊q + 1/2⌋` for every finite `q`. -/
def jsRound (q : ℚ) : ℤ := ⌊q + 1/2⌋

/-- Embedding of `clampScore` from `helpers.ts`:
`if (!Number.isFinite(value)) return 0;
 return Math.max(0, Math.min(100, Math.round(value)));`. -/
def clampScore : JSNum → ℤ
  | .finite q => max 0 (min 100 (jsRound q))
  | _ => 0

/-- First maximal run of ASCII digits in a character list; embeds the JS
regular-expression match `probability.match(/\d+/)?.[0]`. -/
def firstDigitRun : List Char → Option (List Char)
  | [] => none
  | c :: cs =>
      if c.isDigit then some (c :: cs.takeWhile Char.isDigit)
      else firstDigitRun cs

/-- Numeric value of a digit string, as `Number(numeric)` computes it for
an all-digit string. -/
def digitsToNat (ds : List Char) : Nat :=
  ds.foldl (fun a c => 10 * a + (c.toNat - 48)) 0

/-- Embedding of `parseProbabilityToPercent` from `helpers.ts`: extract
the first digit run; if none, clamp the fallback; otherwise parse it and
clamp (the `Number.isFinite` guard of the source is kept, though an
exact-rational parse is always finite). -/
def parseProbabilityToPercent (probability : List Char) (fallback : JSNum) : ℤ :=
  match firstDigitRun probability with
  | none => clampScore fallback
  | some ds =>
      let parsed : JSNum := .finite ((digitsToNat ds : ℤ) : ℚ)
      if jsIsFinite parsed then clampScore parsed else clampScore fallback

/-! ## Part A.2: badge abbreviation (helpers.ts / page.tsx `toBadgeText`) -/

/-- ASCII alphanumeric character, the `[A-Za-z0-9]` class of the JS
regular expression used by `toBadgeText`. -/
def isAlnum (c : Char) : Bool := c.isAlpha || c.isDigit

/-- JS whitespace characters removed by `String.prototype.trim` (the
ASCII subset; the names in the repository contain no exotic spaces). -/
def isJsSpace (c : Char) : Bool :=
  c = ' ' || c = '\t' || c = '\n' || c = '\r'

/-- Embedding of `name.trim()`. -/
def jsTrim (s : List Char) : List Char :=
  ((s.dropWhile isJsSpace).reverse.dropWhile isJsSpace).reverse

/-- Worker for `tokenize`, carrying the reversed current run of
alphanumeric characters. -/
def tokenizeAux : List Char → List Char → List (List Char)
  | [], acc => if acc = [] then [] else [acc.reverse]
  | c :: cs, acc =>
      if isAlnum c then tokenizeAux cs (c :: acc)
      else if acc = [] then tokenizeAux cs []
      else acc.reverse :: tokenizeAux cs []

/-- All maximal runs of alphanumeric characters, in order: embeds
`name.match(/[A-Za-z0-9]+/g) ?? []`. -/
def tokenize (l : List Char) : List (List Char) := tokenizeAux l []

/-- Embedding of `toBadgeText(name, maxLength)` from `helpers.ts` (the
copy in `page.tsx` is textually identical). -/
def toBadgeText (name : List Char) (maxLength : ℤ) : List Char :=
  let tokens := tokenize (jsTrim name)
  match tokens with
  | [] => ['?']
  | [t] =>
      let single := (t.take (max 2 (min 3 maxLength)).toNat).map Char.toUpper
      if single = [] then ['?'] else single
  | t0 :: t1 :: rest =>
      let initials :=
        (((t0 :: t1 :: rest).take (max 2 maxLength).toNat).map
          (fun tok =>
            match tok.head? with
            | some c => [c.toUpper]
            | none => [])).flatten
      if initials.length > 0 then initials
      else
        let firstToken := t0
        let s := (firstToken.take 2).map Char.toUpper
        if s = [] then ['?'] else s

/-! ## Part A.3: match-list processing after a successful `fetchMatches`
response (`page.tsx`) -/

/-- The `Match` record received from `/api/matches/today`, as declared in
`battlefield/types.ts` and `page.tsx`. -/
structure Match where
  id : ℤ
  home_team : List Char
  home_logo : Option (List Char)
  away_team : List Char
  away_logo : Option (List Char)
  kickoff : List Char
  league : List Char
  league_logo : Option (List Char)
  score : ℚ
  probability : List Char
  reason : List Char
deriving DecidableEq

/-- One step of building `new Map(matches.map(m => [m.id, m]))`: a JS
`Map.set` keeps the position of an existing key and overwrites its value,
and appends a new key at the end. -/
def mapUpsert (acc : List Match) (m : Match) : List Match :=
  if acc.any (fun x => x.id = m.id) then
    acc.map (fun x => if x.id = m.id then m else x)
  else
    acc ++ [m]

/-- `Array.from(new Map(matches.map(m => [m.id, m])).values())`: for each
distinct id in first-occurrence order, the last match carrying it. -/
def dedupeById (ms : List Match) : List Match := ms.foldl mapUpsert []

/-- Insert into an already descending-by-score list, placing the new
element after every element of not-smaller score: this is the stable
behaviour of `deduped.sort((a, b) => b.score - a.score)` on the element
processed last among equals. -/
def insertByScore (m : Match) : List Match → List Match
  | [] => [m]
  | x :: xs => if x.score < m.score then m :: x :: xs else x :: insertByScore m xs

/-- Stable sort by descending score, the observable behaviour of the JS
`Array.prototype.sort` call with comparator `(a, b) => b.score - a.score`. -/
def sortByScoreDesc (ms : List Match) : List Match :=
  ms.foldl (fun acc m => insertByScore m acc) []

/-- The whole post-processing `fetchMatches` applies to a successful
response body before storing it in the page state. -/
def processMatches (ms : List Match) : List Match :=
  sortByScoreDesc (dedupeById ms)

/-- First-occurrence id sequence: `firstOccNew seen l` lists the members
of `l` not in `seen`, each at its first occurrence. `firstOccNew []` is
the key order of the JS `Map` built over the response. -/
def firstOccNew (seen : List ℤ) : List ℤ → List ℤ
  | [] => []
  | i :: is => if i ∈ seen then firstOccNew seen is else i :: firstOccNew (seen ++ [i]) is

/-! ## Part B: the upstream-fetch governor

The backend package (`backend/`) is not present in the checked-in tree;
only the repository README documents it (`MAX_DAILY_API_CALLS`,
`SINGLE_FETCH_PER_DATE_PER_DAY`, `MIN_REQUEST_INTERVAL_SECONDS`,
`SNAPSHOT_TTL_MINUTES`, `SNAPSHOT_ERROR_RETRY_MINUTES`).  Every
definition below is therefore modelled from the spec, faithfully to its
component descriptions (§4.1–§4.6).  Timestamps and logical dates are
naturals; payloads are byte lists. -/

/-- Timestamps in the reference timezone. -/
abbrev Time := Nat

/-- An opaque provider payload, kept byte-for-byte as received. -/
abbrev Payload := List Nat

/-- Modelled from the spec: the snapshot kinds, `kind ∈ {fixtures,
standings, logos}`. -/
inductive Kind where
  | fixtures : Kind
  | standings : Kind
  | logos : Kind
deriving DecidableEq

/-- Modelled from the spec: a cache/quota key `(kind, logical_date)`;
the logical date is a day number in the reference timezone. -/
structure Key where
  kind : Kind
  date : Nat
deriving DecidableEq

/-- Modelled from the spec: the `QuotaCounter` singleton for one
calendar day. -/
structure QuotaCounter where
  calls_made : Nat
  max_calls : Nat
  locked_for_rest_of_day : Bool
deriving DecidableEq

/-- The reasons `tryReserve` can deny a reservation. -/
inductive DenyReason where
  | budget_exhausted : DenyReason
  | locked : DenyReason
deriving DecidableEq

/-- Result of a `tryReserve` attempt. -/
inductive ReserveResult where
  | Reserved : ReserveResult
  | Denied (reason : DenyReason) : ReserveResult
deriving DecidableEq

/-- Modelled from the spec (§4.2): `tryReserve` atomically checks
`locked_for_rest_of_day = false` and `calls_made < max_calls`; if both
hold it increments `calls_made` and returns Reserved, else it returns
Denied with reason `locked` or `budget_exhausted` and leaves the counter
unchanged. -/
def tryReserve (q : QuotaCounter) : QuotaCounter × ReserveResult :=
  if q.locked_for_rest_of_day then (q, .Denied .locked)
  else if q.calls_made < q.max_calls then
    ({ q with calls_made := q.calls_made + 1 }, .Reserved)
  else (q, .Denied .budget_exhausted)

/-- Modelled from the spec (§4.2): sets `locked_for_rest_of_day := true`
for the current day; idempotent. -/
def recordUpstreamDailyLimitSignal (q : QuotaCounter) : QuotaCounter :=
  { q with locked_for_rest_of_day := true }

/-- The fresh counter created at day rollover. -/
def rolloverCounter (q : QuotaCounter) : QuotaCounter :=
  { calls_made := 0, max_calls := q.max_calls, locked_for_rest_of_day := false }

/-- The operations that can touch the Quota Ledger over time. -/
inductive LedgerOp where
  | reserve : LedgerOp
  | recordDailyLimit : LedgerOp
  | rollover : LedgerOp
deriving DecidableEq

/-- Apply one ledger operation. -/
def applyLedgerOp (q : QuotaCounter) : LedgerOp → QuotaCounter
  | .reserve => (tryReserve q).1
  | .recordDailyLimit => recordUpstreamDailyLimitSignal q
  | .rollover => rolloverCounter q

/-- Apply a sequence of ledger operations. -/
def applyLedgerOps (q : QuotaCounter) (ops : List LedgerOp) : QuotaCounter :=
  ops.foldl applyLedgerOp q

/-- Modelled from the spec (§3): the per-`(kind, date)` marker of an
upstream attempt made today. `attempted` blocks for the rest of the day;
`transientRetry r` records a transient failure retryable from time `r`. -/
inductive FetchRecord where
  | attempted : FetchRecord
  | transientRetry (retryAt : Time) : FetchRecord
deriving DecidableEq

/-- Modelled from the spec (§3, §4.5): a stored snapshot entry. The
payload is optional because a failure with no prior success stores an
error marker without a payload; `next_retry_at` is meaningful only when
`errorState` is set. -/
structure SnapshotEntry where
  payload : Option Payload
  fetched_at : Time
  errorState : Bool
  next_retry_at : Time
deriving DecidableEq

/-- Modelled from the spec (§4.4): the classification of an upstream
response. -/
inductive UpstreamResult where
  | Success (p : Payload) : UpstreamResult
  | DailyLimitReached : UpstreamResult
  | TransientError : UpstreamResult
  | FatalError : UpstreamResult
deriving DecidableEq

/-- Whether an upstream result is a `Success`. -/
def isSuccess : UpstreamResult → Bool
  | .Success _ => true
  | _ => false

/-- Modelled from the spec (§6): the configuration surface of the core.
`ttl` is the snapshot freshness window, `cooldown` the minimum
inter-request interval, `error_retry` the backoff after a daily-limit or
fatal failure, `transient_retry` the shorter backoff after a transient
failure, `today`/`includeTomorrow` the scope policy. -/
structure Config where
  ttl : Nat
  cooldown : Nat
  error_retry : Nat
  transient_retry : Nat
  today : Nat
  includeTomorrow : Bool
deriving DecidableEq

/-- Modelled from the spec (§4.1): `isInScope` holds only for today, and
for tomorrow iff the configuration flag enables it. -/
def isInScope (cfg : Config) (d : Nat) : Bool :=
  decide (d = cfg.today) || (cfg.includeTomorrow && decide (d = cfg.today + 1))

/-- The shared state of one logical day: quota counter, per-key fetch
records, the process-wide timestamp of the last upstream call, and the
snapshot store. -/
structure SysState where
  quota : QuotaCounter
  records : Key → Option FetchRecord
  lastCallAt : Option Time
  store : Key → Option SnapshotEntry

/-- Point update of the fetch-record table. -/
def setRecord (r : Key → Option FetchRecord) (k : Key) (v : FetchRecord) :
    Key → Option FetchRecord :=
  fun k2 => if k2 = k then some v else r k2

/-- Point update (upsert) of the snapshot store. -/
def setStore (st : Key → Option SnapshotEntry) (k : Key) (v : SnapshotEntry) :
    Key → Option SnapshotEntry :=
  fun k2 => if k2 = k then some v else st k2

/-- Whether the per-key fetch record blocks a new attempt right now:
`attempted` always blocks; a transient-failure record blocks until its
retry time. -/
def recordBlocks (now : Time) : Option FetchRecord → Bool
  | none => false
  | some .attempted => true
  | some (.transientRetry r) => decide (now < r)

/-- Whether the process-wide inter-request cooldown has not yet elapsed
since the last upstream call of any kind. -/
def cooldownActive (cfg : Config) (s : SysState) (now : Time) : Bool :=
  match s.lastCallAt with
  | none => false
  | some t => decide (now < t + cfg.cooldown)

/-- The rejection reasons of the Fetch Gate. -/
inductive GateReject where
  | not_in_scope : GateReject
  | already_attempted_today : GateReject
  | throttled : GateReject
  | budget_exhausted : GateReject
  | locked : GateReject
deriving DecidableEq

/-- Mapping of a ledger denial onto the gate's rejection vocabulary. -/
def denyToReject : DenyReason → GateReject
  | .budget_exhausted => .budget_exhausted
  | .locked => .locked

/-- The Fetch Gate's verdict. -/
inductive GateResult where
  | Authorized : GateResult
  | Rejected (reason : GateReject) : GateResult
deriving DecidableEq

/-- Modelled from the spec (§4.3): the Fetch Gate. Checks run in the
fixed order scope → daily-attempt record (with the transient retry
window honoured instead of the daily gate) → inter-request cooldown →
quota reservation; on success the FetchRecord is claimed and the
last-call timestamp set before the network call executes. -/
def fetchGate (cfg : Config) (s : SysState) (k : Key) (now : Time) :
    GateResult × SysState :=
  if isInScope cfg k.date = false then (.Rejected .not_in_scope, s)
  else if recordBlocks now (s.records k) = true then (.Rejected .already_attempted_today, s)
  else if cooldownActive cfg s now = true then (.Rejected .throttled, s)
  else
    match tryReserve s.quota with
    | (q1, .Reserved) =>
        (.Authorized,
          { quota := q1
            records := setRecord s.records k .attempted
            lastCallAt := some now
            store := s.store })
    | (_, .Denied r) => (.Rejected (denyToReject r), s)

/-- Where a served payload came from. -/
inductive Source where
  | cache : Source
  | live : Source
deriving DecidableEq

/-- The successful result shape of `getSnapshot`. -/
structure SnapResult where
  payload : Payload
  source : Source
  fetched_at : Time
  stale : Bool
deriving DecidableEq

/-- `getSnapshot` either serves a payload or reports `Unavailable`. -/
inductive GetResult where
  | Ok (r : SnapResult) : GetResult
  | Unavailable : GetResult
deriving DecidableEq

/-- Serve the stored entry from cache with the given staleness flag; an
error marker holding no payload yields `Unavailable`. -/
def serveCached (s : SysState) (en : SnapshotEntry) (st : Bool) :
    GetResult × SysState × Bool :=
  match en.payload with
  | some p => (.Ok ⟨p, .cache, en.fetched_at, st⟩, s, false)
  | none => (.Unavailable, s, false)

/-- Modelled from the spec (§4.6): after an authorized upstream call
fails, write an `ErrorBackoff` entry (payload and fetch time unchanged if
one existed) with `next_retry_at := now + backoff`, and serve the last
known payload if any, else `Unavailable`.  The third component records
that an upstream call was made. -/
def failServe (s : SysState) (k : Key) (now : Time) (prior : Option SnapshotEntry)
    (backoff : Nat) : GetResult × SysState × Bool :=
  let en : SnapshotEntry :=
    match prior with
    | some old => { old with errorState := true, next_retry_at := now + backoff }
    | none => ⟨none, now, true, now + backoff⟩
  let s2 : SysState := { s with store := setStore s.store k en }
  match prior with
  | some old =>
      match old.payload with
      | some p => (.Ok ⟨p, .cache, old.fetched_at, true⟩, s2, true)
      | none => (.Unavailable, s2, true)
  | none => (.Unavailable, s2, true)

/-- Modelled from the spec (§4.6, transitions 2 and 3): consult the Fetch
Gate; if authorized, perform the upstream call (its classification is the
`up` argument) and update store, ledger and records accordingly; if
rejected, degrade to the stored payload if any. -/
def refreshAndServe (cfg : Config) (s : SysState) (k : Key) (now : Time)
    (up : UpstreamResult) (prior : Option SnapshotEntry) :
    GetResult × SysState × Bool :=
  match fetchGate cfg s k now with
  | (.Authorized, s1) =>
      match up with
      | .Success p =>
          let en : SnapshotEntry := ⟨some p, now, false, 0⟩
          (.Ok ⟨p, .live, now, false⟩, { s1 with store := setStore s1.store k en }, true)
      | .DailyLimitReached =>
          let s2 : SysState := { s1 with quota := recordUpstreamDailyLimitSignal s1.quota }
          failServe s2 k now prior cfg.error_retry
      | .FatalError => failServe s1 k now prior cfg.error_retry
      | .TransientError =>
          let s2 : SysState :=
            { s1 with records := setRecord s1.records k (.transientRetry (now + cfg.transient_retry)) }
          failServe s2 k now prior cfg.transient_retry
  | (.Rejected _, s1) =>
      match prior with
      | some en => serveCached s1 en true
      | none => (.Unavailable, s1, false)

/-- Modelled from the spec (§4.6, §6): the read operation of the
Snapshot Manager.  A `Fresh` entry is served from cache with no gate
consultation; an `ErrorBackoff` entry whose retry time has not come is
served from cache as stale; otherwise a refresh is attempted through the
Fetch Gate.  The Bool component reports whether an upstream call was
made during this read. -/
def getSnapshot (cfg : Config) (s : SysState) (k : Key) (now : Time)
    (up : UpstreamResult) : GetResult × SysState × Bool :=
  match s.store k with
  | none => refreshAndServe cfg s k now up none
  | some en =>
      if en.errorState = true then
        if now < en.next_retry_at then serveCached s en true
        else refreshAndServe cfg s k now up (some en)
      else
        if now - en.fetched_at < cfg.ttl then serveCached s en false
        else refreshAndServe cfg s k now up (some en)

/-- One read request arriving at the Snapshot Manager: its key, its
arrival time and the classification the upstream provider would return
were a call made. -/
structure ReadEvent where
  k : Key
  now : Time
  up : UpstreamResult

/-- Number of `Success`-classified upstream calls made for key `k` while
running a sequence of read events (all within one logical day: the model
carries a single day's records and counter). -/
def successCount (cfg : Config) (k : Key) : SysState → List ReadEvent → Nat
  | _, [] => 0
  | s, e :: es =>
      let r := getSnapshot cfg s e.k e.now e.up
      (if e.k = k ∧ r.2.2 = true ∧ isSuccess e.up = true then 1 else 0) +
        successCount cfg k r.2.1 es

/-- Number of upstream calls (of any outcome) made for key `k` while
running a sequence of read events. -/
def upstreamCount (cfg : Config) (k : Key) : SysState → List ReadEvent → Nat
  | _, [] => 0
  | s, e :: es =>
      let r := getSnapshot cfg s e.k e.now e.up
      (if e.k = k ∧ r.2.2 = true then 1 else 0) + upstreamCount cfg k r.2.1 es

/-- The payload currently stored for `k`, if any. -/
def storedPayload (s : SysState) (k : Key) : Option Payload :=
  match s.store k with
  | some en => en.payload
  | none => none

/-! ## Theorems. Helper lemmas first, then one theorem per claim. -/

theorem uint32_lt_toNat {a b : UInt32} : a < b ↔ a.toNat < b.toNat := by
  rw [UInt32.lt_def, BitVec.lt_def]
  rfl

theorem uint32_le_toNat {a b : UInt32} : a ≤ b ↔ a.toNat ≤ b.toNat := by
  rw [UInt32.le_def, BitVec.le_def]
  rfl

theorem char_toNat_ofNat_small (m : Nat) (h : m < 55296) : (Char.ofNat m).toNat = m := by
  rw [Char.ofNat, dif_pos (Or.inl h)]
  rfl

/-- `String.prototype.toUpperCase` maps an ASCII alphanumeric character
to an upper-case letter or a digit. -/
theorem toUpper_upper_or_digit (c : Char) (h : isAlnum c = true) :
    (Char.toUpper c).isUpper = true ∨ (Char.toUpper c).isDigit = true := by
  simp only [isAlnum, Char.isAlpha, Char.isUpper, Char.isLower, Char.isDigit,
    Bool.or_eq_true, Bool.and_eq_true, decide_eq_true_eq, ge_iff_le,
    uint32_le_toNat] at h
  have h65 : (65 : UInt32).toNat = 65 := rfl
  have h90 : (90 : UInt32).toNat = 90 := rfl
  have h97 : (97 : UInt32).toNat = 97 := rfl
  have h122 : (122 : UInt32).toNat = 122 := rfl
  have h48 : (48 : UInt32).toNat = 48 := rfl
  have h57 : (57 : UInt32).toNat = 57 := rfl
  rw [h65, h90, h97, h122, h48, h57] at h
  have hval : c.val.toNat = c.toNat := rfl
  rw [hval] at h
  by_cases hl : 97 ≤ c.toNat ∧ c.toNat ≤ 122
  · left
    have hup : Char.toUpper c = Char.ofNat (c.toNat - 32) := by
      rw [Char.toUpper, if_pos]
      exact ⟨hl.1, hl.2⟩
    rw [hup]
    have hu : (Char.ofNat (c.toNat - 32)).toNat = c.toNat - 32 :=
      char_toNat_ofNat_small _ (by omega)
    simp only [Char.isUpper, Bool.and_eq_true, decide_eq_true_eq, ge_iff_le, uint32_le_toNat]
    rw [h65, h90]
    have hv2 : (Char.ofNat (c.toNat - 32)).val.toNat = (Char.ofNat (c.toNat - 32)).toNat := rfl
    rw [hv2, hu]
    omega
  · have hid : Char.toUpper c = c := by
      rw [Char.toUpper, if_neg]
      exact hl
    rw [hid]
    simp only [Char.isUpper, Char.isDigit, Bool.and_eq_true, decide_eq_true_eq, ge_iff_le,
      uint32_le_toNat]
    rw [h65, h90, h48, h57, hval]
    omega

theorem clampScore_bounds (v : JSNum) : 0 ≤ clampScore v ∧ clampScore v ≤ 100 := by
  cases v with
  | finite q =>
      simp only [clampScore]
      omega
  | nan => simp [clampScore]
  | inf => simp [clampScore]
  | ninf => simp [clampScore]

/-- Claim C8: `clampScore` maps every JS number into the closed integer
range `[0, 100]`: non-finite inputs yield 0, negatives yield 0, inputs
above 100 yield 100, in-range inputs yield `Math.round`; and
`parseProbabilityToPercent` is therefore within `[0, 100]` on every
return path. -/
theorem clampScore_parseProbability_range :
    (∀ v : JSNum, 0 ≤ clampScore v ∧ clampScore v ≤ 100) ∧
    (clampScore .nan = 0 ∧ clampScore .inf = 0 ∧ clampScore .ninf = 0) ∧
    (∀ q : ℚ, q < 0 → clampScore (.finite q) = 0) ∧
    (∀ q : ℚ, 100 < q → clampScore (.finite q) = 100) ∧
    (∀ q : ℚ, 0 ≤ q → q ≤ 100 → clampScore (.finite q) = jsRound q) ∧
    (∀ (pr : List Char) (fb : JSNum),
      0 ≤ parseProbabilityToPercent pr fb ∧ parseProbabilityToPercent pr fb ≤ 100) := by
  refine ⟨clampScore_bounds, by simp [clampScore], ?_, ?_, ?_, ?_⟩
  · intro q hq
    have hr : jsRound q < 1 := by
      rw [jsRound]
      refine Int.floor_lt.mpr ?_
      push_cast
      linarith
    simp only [clampScore]
    omega
  · intro q hq
    have hr : (100 : ℤ) ≤ jsRound q := by
      rw [jsRound]
      refine Int.le_floor.mpr ?_
      push_cast
      linarith
    simp only [clampScore]
    omega
  · intro q hq0 hq1
    have hr0 : (0 : ℤ) ≤ jsRound q := by
      rw [jsRound]
      refine Int.le_floor.mpr ?_
      push_cast
      linarith
    have hr1 : jsRound q < 101 := by
      rw [jsRound]
      refine Int.floor_lt.mpr ?_
      push_cast
      linarith
    simp only [clampScore]
    omega
  · intro pr fb
    rw [parseProbabilityToPercent]
    cases h : firstDigitRun pr with
    | none => exact clampScore_bounds fb
    | some ds =>
        simp only [jsIsFinite, if_pos]
        exact clampScore_bounds _

/-- Witness for C8 at concrete inputs. -/
theorem clampScore_parseProbability_range_witness :
    clampScore (.finite (-7)) = 0 ∧ clampScore (.finite 250) = 100 ∧
    clampScore (.finite 50) = jsRound 50 ∧
    (0 ≤ parseProbabilityToPercent ['7', '2'] (.finite 0) ∧
      parseProbabilityToPercent ['7', '2'] (.finite 0) ≤ 100) :=
  ⟨clampScore_parseProbability_range.2.2.1 (-7) (by norm_num),
   clampScore_parseProbability_range.2.2.2.1 250 (by norm_num),
   clampScore_parseProbability_range.2.2.2.2.1 50 (by norm_num) (by norm_num),
   clampScore_parseProbability_range.2.2.2.2.2 ['7', '2'] (.finite 0)⟩

theorem tokenizeAux_mem : ∀ (l acc : List Char), (∀ c ∈ acc, isAlnum c = true) →
    ∀ t ∈ tokenizeAux l acc, t ≠ [] ∧ ∀ c ∈ t, isAlnum c = true := by
  intro l
  induction l with
  | nil =>
      intro acc hacc t ht
      rw [tokenizeAux] at ht
      by_cases h : acc = []
      · simp [h] at ht
      · rw [if_neg h] at ht
        rcases List.mem_singleton.mp ht with rfl
        refine ⟨by simpa using h, ?_⟩
        intro c hc
        exact hacc c (List.mem_reverse.mp hc)
  | cons c cs ih =>
      intro acc hacc t ht
      rw [tokenizeAux] at ht
      by_cases h : isAlnum c
      · rw [if_pos h] at ht
        refine ih (c :: acc) ?_ t ht
        intro d hd
        rcases List.mem_cons.mp hd with rfl | hd2
        · exact h
        · exact hacc d hd2
      · rw [if_neg h] at ht
        by_cases h2 : acc = []
        · rw [if_pos h2] at ht
          exact ih [] (by simp) t ht
        · rw [if_neg h2] at ht
          rcases List.mem_cons.mp ht with rfl | ht2
          · refine ⟨by simpa using h2, ?_⟩
            intro d hd
            exact hacc d (List.mem_reverse.mp hd)
          · exact ih [] (by simp) t ht2

/-- Every token produced by `tokenize` is a nonempty run of
alphanumeric characters. -/
theorem tokenize_mem : ∀ (l : List Char), ∀ t ∈ tokenize l, t ≠ [] ∧ ∀ c ∈ t, isAlnum c = true := by
  intro l
  exact tokenizeAux_mem l [] (by simp)

/-- Claim C9: `toBadgeText` always returns a nonempty string: the
placeholder `?` exactly when the name holds no alphanumeric token, and
otherwise an abbreviation made of uppercase letters and digits (so never
the placeholder). -/
theorem toBadgeText_nonempty :
    ∀ (name : List Char) (ml : ℤ),
      toBadgeText name ml ≠ [] ∧
      (tokenize (jsTrim name) = [] → toBadgeText name ml = ['?']) ∧
      (tokenize (jsTrim name) ≠ [] →
        toBadgeText name ml ≠ ['?'] ∧
        ∀ c ∈ toBadgeText name ml, (c.isUpper = true ∨ c.isDigit = true)) := by
  intro name ml
  cases htk : tokenize (jsTrim name) with
  | nil =>
      exact ⟨by simp [toBadgeText, htk], fun _ => by simp [toBadgeText, htk],
        fun hne => absurd rfl hne⟩
  | cons t0 ts =>
      have ht0 := tokenize_mem (jsTrim name) t0 (htk ▸ List.mem_cons_self t0 ts)
      cases ts with
      | nil =>
          have hn : 2 ≤ (max 2 (min 3 ml)).toNat := by omega
          have hsingle : (t0.take (max 2 (min 3 ml)).toNat).map Char.toUpper ≠ [] := by
            intro hc
            rcases List.take_eq_nil_iff.mp (List.map_eq_nil_iff.mp hc) with h0 | h0
            · omega
            · exact ht0.1 h0
          have hred : toBadgeText name ml = (t0.take (max 2 (min 3 ml)).toNat).map Char.toUpper := by
            simp only [toBadgeText, htk, if_neg hsingle]
          have hchars : ∀ c ∈ toBadgeText name ml, (c.isUpper = true ∨ c.isDigit = true) := by
            intro c hc
            rw [hred] at hc
            rcases List.mem_map.mp hc with ⟨d, hd, rfl⟩
            exact toUpper_upper_or_digit d (ht0.2 d (List.take_subset _ _ hd))
          refine ⟨hred ▸ hsingle, ?_, fun _ => ⟨?_, hchars⟩⟩
          · intro hpre
            exact absurd hpre (by simp)
          · intro hq
            have hbad := hchars '?' (by rw [hq]; exact List.mem_cons_self _ _)
            revert hbad
            decide
      | cons t1 rest =>
          obtain ⟨m', hm'⟩ : ∃ m', (max 2 ml).toNat = m' + 2 := ⟨(max 2 ml).toNat - 2, by omega⟩
          obtain ⟨c0, tl0, rfl⟩ := List.exists_cons_of_ne_nil ht0.1
          have hinit :
              ((((c0 :: tl0) :: t1 :: rest).take (max 2 ml).toNat).map
                (fun tok =>
                  match tok.head? with
                  | some c => [c.toUpper]
                  | none => [])).flatten =
              c0.toUpper ::
                (((t1 :: rest).take (m' + 1)).map
                  (fun tok =>
                    match tok.head? with
                    | some c => [c.toUpper]
                    | none => [])).flatten := by
            rw [hm']
            rfl
          have hred : toBadgeText name ml =
              ((((c0 :: tl0) :: t1 :: rest).take (max 2 ml).toNat).map
                (fun tok =>
                  match tok.head? with
                  | some c => [c.toUpper]
                  | none => [])).flatten := by
            simp only [toBadgeText, htk]
            rw [hinit]
            simp
          have hchars : ∀ c ∈ toBadgeText name ml, (c.isUpper = true ∨ c.isDigit = true) := by
            intro c hc
            rw [hred] at hc
            rcases List.mem_flatten.mp hc with ⟨l, hl, hcl⟩
            rcases List.mem_map.mp hl with ⟨tok, htok, rfl⟩
            have htoks := tokenize_mem (jsTrim name) tok (htk ▸ List.take_subset _ _ htok)
            cases tok with
            | nil => exact absurd rfl htoks.1
            | cons d tl =>
                simp only [List.head?, List.mem_singleton] at hcl
                subst hcl
                exact toUpper_upper_or_digit d (htoks.2 d (List.mem_cons_self _ _))
          have hnonempty : toBadgeText name ml ≠ [] := by
            rw [hred, hinit]
            simp
          refine ⟨hnonempty, ?_, fun _ => ⟨?_, hchars⟩⟩
          · intro hpre
            exact absurd hpre (by simp)
          · intro hq
            have hbad := hchars '?' (by rw [hq]; exact List.mem_cons_self _ _)
            revert hbad
            decide

/-- Witness for C9 at a concrete team name. -/
theorem toBadgeText_nonempty_witness :
    toBadgeText ['A', 'C', ' ', 'M', 'i', 'l', 'a', 'n'] 3 ≠ [] ∧
    toBadgeText ['A', 'C', ' ', 'M', 'i', 'l', 'a', 'n'] 3 ≠ ['?'] :=
  ⟨(toBadgeText_nonempty ['A', 'C', ' ', 'M', 'i', 'l', 'a', 'n'] 3).1,
   ((toBadgeText_nonempty ['A', 'C', ' ', 'M', 'i', 'l', 'a', 'n'] 3).2.2 (by decide)).1⟩


theorem mapUpsert_map_id (acc : List Match) (m : Match) :
    (mapUpsert acc m).map (fun x => x.id) =
      if m.id ∈ acc.map (fun x => x.id) then acc.map (fun x => x.id)
      else acc.map (fun x => x.id) ++ [m.id] := by
  by_cases h : m.id ∈ acc.map (fun x => x.id)
  · rw [if_pos h]
    have hany : acc.any (fun x => x.id = m.id) = true := by
      rcases List.mem_map.mp h with ⟨x, hx, hid⟩
      exact List.any_eq_true.mpr ⟨x, hx, by simp [hid]⟩
    rw [mapUpsert, if_pos hany, List.map_map]
    apply List.map_congr_left
    intro x hx
    by_cases hxm : x.id = m.id
    · simp [hxm]
    · simp [hxm]
  · rw [if_neg h]
    have hany : acc.any (fun x => x.id = m.id) = false := by
      rw [List.any_eq_false]
      intro x hx
      simp only [decide_eq_true_eq]
      intro hid
      exact h (List.mem_map.mpr ⟨x, hx, hid⟩)
    rw [mapUpsert, if_neg (by simp [hany]), List.map_append]
    rfl

theorem dedupe_ids_aux : ∀ (ms acc : List Match),
    (ms.foldl mapUpsert acc).map (fun x => x.id) =
      acc.map (fun x => x.id) ++
        firstOccNew (acc.map (fun x => x.id)) (ms.map (fun x => x.id)) := by
  intro ms
  induction ms with
  | nil =>
      intro acc
      simp [firstOccNew]
  | cons m ms ih =>
      intro acc
      rw [List.foldl_cons, ih (mapUpsert acc m), mapUpsert_map_id, List.map_cons]
      by_cases h : m.id ∈ acc.map (fun x => x.id)
      · rw [if_pos h]
        rw [firstOccNew, if_pos h]
      · rw [if_neg h]
        rw [firstOccNew, if_neg h, List.append_assoc]
        rfl

theorem firstOccNew_nodup : ∀ (l seen : List ℤ), seen.Nodup →
    (seen ++ firstOccNew seen l).Nodup := by
  intro l
  induction l with
  | nil =>
      intro seen h
      simpa [firstOccNew] using h
  | cons i is ih =>
      intro seen h
      rw [firstOccNew]
      by_cases hm : i ∈ seen
      · rw [if_pos hm]
        exact ih seen h
      · rw [if_neg hm]
        have hstep := ih (seen ++ [i]) (by simp [List.nodup_append, h, hm])
        simpa [List.append_assoc] using hstep

theorem find?_mapUpsert_self (acc : List Match) (m : Match) :
    (mapUpsert acc m).find? (fun x => x.id = m.id) = some m := by
  rw [mapUpsert]
  by_cases hany : acc.any (fun x => x.id = m.id) = true
  · rw [if_pos hany]
    rcases List.any_eq_true.mp hany with ⟨x0, hx0, hid0⟩
    clear hany
    induction acc with
    | nil => cases hx0
    | cons a acc ih =>
        rcases List.mem_cons.mp hx0 with rfl | hx2
        · rw [List.map_cons]
          have : (if x0.id = m.id then m else x0) = m := if_pos (by simpa using hid0)
          rw [this, List.find?_cons_of_pos _ (by simp)]
        · rw [List.map_cons]
          by_cases ham : a.id = m.id
          · rw [if_pos ham, List.find?_cons_of_pos _ (by simp)]
          · rw [if_neg ham, List.find?_cons_of_neg _ (by simp [ham])]
            exact ih hx2
  · rw [if_neg hany]
    rw [List.find?_append]
    have hnone : acc.find? (fun x => x.id = m.id) = none := by
      rw [List.find?_eq_none]
      intro x hx
      simp only [decide_eq_true_eq]
      intro hid
      exact hany (List.any_eq_true.mpr ⟨x, hx, by simp [hid]⟩)
    rw [hnone]
    simp

theorem find?_mapUpsert_other (acc : List Match) (m : Match) (i : ℤ) (h : ¬ i = m.id) :
    (mapUpsert acc m).find? (fun x => x.id = i) = acc.find? (fun x => x.id = i) := by
  rw [mapUpsert]
  by_cases hany : acc.any (fun x => x.id = m.id) = true
  · rw [if_pos hany]
    clear hany
    induction acc with
    | nil => rfl
    | cons a acc ih =>
        rw [List.map_cons]
        by_cases ham : a.id = m.id
        · rw [if_pos ham]
          have hpa : ¬ a.id = i := by
            rw [ham]
            intro hc
            exact h hc.symm
          rw [List.find?_cons_of_neg _ (by simpa using fun hc => h hc.symm),
            List.find?_cons_of_neg _ (by simpa using hpa)]
          exact ih
        · rw [if_neg ham]
          by_cases hpa : a.id = i
          · rw [List.find?_cons_of_pos _ (by simpa using hpa),
              List.find?_cons_of_pos _ (by simpa using hpa)]
          · rw [List.find?_cons_of_neg _ (by simpa using hpa),
              List.find?_cons_of_neg _ (by simpa using hpa)]
            exact ih
  · rw [if_neg hany]
    rw [List.find?_append]
    have hm1 : ([m].find? (fun x => x.id = i)) = none := by
      rw [List.find?_eq_none]
      intro x hx
      rcases List.mem_singleton.mp hx with rfl
      simpa using fun hc => h hc.symm
    rw [hm1]
    simp

theorem find?_dedupe_aux : ∀ (ms acc : List Match) (i : ℤ),
    (ms.foldl mapUpsert acc).find? (fun x => x.id = i) =
      (ms.reverse.find? (fun x => x.id = i)).or (acc.find? (fun x => x.id = i)) := by
  intro ms
  induction ms with
  | nil =>
      intro acc i
      simp
  | cons m ms ih =>
      intro acc i
      rw [List.foldl_cons, ih (mapUpsert acc m) i, List.reverse_cons, List.find?_append]
      by_cases h : i = m.id
      · subst h
        rw [find?_mapUpsert_self]
        have hm1 : ([m].find? (fun x => x.id = m.id)) = some m := by simp
        rw [hm1, Option.or_assoc]
        rfl
      · rw [find?_mapUpsert_other acc m i h]
        have hm1 : ([m].find? (fun x => x.id = i)) = none := by
          rw [List.find?_eq_none]
          intro x hx
          rcases List.mem_singleton.mp hx with rfl
          simpa using fun hc => h hc.symm
        rw [hm1, Option.or_none]

theorem find?_dedupeById (ms : List Match) (i : ℤ) :
    (dedupeById ms).find? (fun x => x.id = i) = ms.reverse.find? (fun x => x.id = i) := by
  rw [dedupeById, find?_dedupe_aux]
  simp

theorem find?_eq_of_mem_nodup : ∀ (l : List Match),
    (l.map (fun x => x.id)).Nodup →
    ∀ x ∈ l, l.find? (fun y => y.id = x.id) = some x := by
  intro l
  induction l with
  | nil => simp
  | cons a l ih =>
      intro hnd x hx
      rw [List.map_cons, List.nodup_cons] at hnd
      rcases List.mem_cons.mp hx with rfl | hx2
      · rw [List.find?_cons_of_pos _ (by simp)]
      · by_cases hid : a.id = x.id
        · exfalso
          exact hnd.1 (hid ▸ List.mem_map.mpr ⟨x, hx2, rfl⟩)
        · rw [List.find?_cons_of_neg _ (by simpa using hid)]
          exact ih hnd.2 x hx2

theorem insertByScore_perm (m : Match) : ∀ l : List Match, (insertByScore m l).Perm (m :: l) := by
  intro l
  induction l with
  | nil => exact List.Perm.refl _
  | cons x xs ih =>
      rw [insertByScore]
      by_cases h : x.score < m.score
      · rw [if_pos h]
      · rw [if_neg h]
        exact (ih.cons x).trans (List.Perm.swap m x xs)

theorem sortByScoreDesc_perm_aux : ∀ (ms acc : List Match),
    (ms.foldl (fun a m => insertByScore m a) acc).Perm (acc ++ ms) := by
  intro ms
  induction ms with
  | nil =>
      intro acc
      simp
  | cons m ms ih =>
      intro acc
      rw [List.foldl_cons]
      refine (ih (insertByScore m acc)).trans ?_
      refine (((insertByScore_perm m acc).append_right ms).trans ?_)
      exact List.perm_middle.symm

theorem sortByScoreDesc_perm (ms : List Match) : (sortByScoreDesc ms).Perm ms := by
  have h := sortByScoreDesc_perm_aux ms []
  simpa [sortByScoreDesc] using h

theorem insertByScore_sorted (m : Match) : ∀ l : List Match,
    l.Pairwise (fun a b => b.score ≤ a.score) →
    (insertByScore m l).Pairwise (fun a b => b.score ≤ a.score) := by
  intro l
  induction l with
  | nil =>
      intro _
      simp [insertByScore]
  | cons x xs ih =>
      intro h
      have hp := List.pairwise_cons.mp h
      rw [insertByScore]
      by_cases hx : x.score < m.score
      · rw [if_pos hx]
        refine List.Pairwise.cons ?_ h
        intro y hy
        rcases List.mem_cons.mp hy with rfl | hy2
        · exact le_of_lt hx
        · exact le_trans (hp.1 y hy2) (le_of_lt hx)
      · rw [if_neg hx]
        refine List.Pairwise.cons ?_ (ih hp.2)
        intro y hy
        have hmem : y = m ∨ y ∈ xs := by
          have hme := (insertByScore_perm m xs).mem_iff.mp hy
          simpa using hme
        rcases hmem with rfl | hy2
        · exact le_of_not_lt hx
        · exact hp.1 y hy2

theorem sortByScoreDesc_sorted (ms : List Match) :
    (sortByScoreDesc ms).Pairwise (fun a b => b.score ≤ a.score) := by
  rw [sortByScoreDesc]
  have haux : ∀ (l acc : List Match), acc.Pairwise (fun a b => b.score ≤ a.score) →
      (l.foldl (fun a m => insertByScore m a) acc).Pairwise (fun a b => b.score ≤ a.score) := by
    intro l
    induction l with
    | nil => intro acc h; simpa
    | cons m l ih =>
        intro acc h
        rw [List.foldl_cons]
        exact ih _ (insertByScore_sorted m acc h)
  exact haux ms [] (by simp)

/-- Claim C10: after a successful `fetchMatches` response the stored list
has at most one match per id, keeps the last occurrence of each id in
first-occurrence order before sorting, and is sorted in non-increasing
score order. -/
theorem processMatches_dedup_sorted : ∀ ms : List Match,
    ((processMatches ms).map (fun x => x.id)).Nodup ∧
    (processMatches ms).Pairwise (fun a b => b.score ≤ a.score) ∧
    (processMatches ms).Perm (dedupeById ms) ∧
    (dedupeById ms).map (fun x => x.id) = firstOccNew [] (ms.map (fun x => x.id)) ∧
    (∀ x ∈ processMatches ms, ms.reverse.find? (fun y => y.id = x.id) = some x) := by
  intro ms
  have hperm : (processMatches ms).Perm (dedupeById ms) := by
    rw [processMatches]
    exact sortByScoreDesc_perm _
  have hids : (dedupeById ms).map (fun x => x.id) = firstOccNew [] (ms.map (fun x => x.id)) := by
    have h := dedupe_ids_aux ms []
    simpa [dedupeById] using h
  have hnd : ((dedupeById ms).map (fun x => x.id)).Nodup := by
    rw [hids]
    have h := firstOccNew_nodup (ms.map (fun x => x.id)) [] List.nodup_nil
    simpa using h
  refine ⟨(hperm.map (fun x => x.id)).nodup_iff.mpr hnd, ?_, hperm, hids, ?_⟩
  · rw [processMatches]
    exact sortByScoreDesc_sorted _
  · intro x hx
    have hxil : x ∈ dedupeById ms := hperm.subset hx
    have hfind := find?_eq_of_mem_nodup (dedupeById ms) hnd x hxil
    rw [find?_dedupeById ms x.id] at hfind
    exact hfind

/-- Witness for C10 on a concrete response with a duplicated id. -/
theorem processMatches_dedup_sorted_witness :
    (([⟨1, [], none, [], none, [], [], none, 10, [], []⟩,
       ⟨2, [], none, [], none, [], [], none, 50, [], []⟩,
       ⟨1, [], none, [], none, [], [], none, 70, [], []⟩] : List Match).reverse.find?
      (fun y => y.id = (⟨1, [], none, [], none, [], [], none, 70, [], []⟩ : Match).id)) =
      some ⟨1, [], none, [], none, [], [], none, 70, [], []⟩ :=
  (processMatches_dedup_sorted
    [⟨1, [], none, [], none, [], [], none, 10, [], []⟩,
     ⟨2, [], none, [], none, [], [], none, 50, [], []⟩,
     ⟨1, [], none, [], none, [], [], none, 70, [], []⟩]).2.2.2.2
    ⟨1, [], none, [], none, [], [], none, 70, [], []⟩ (by decide)


theorem tryReserve_reserved_inv {q q1 : QuotaCounter} (h : tryReserve q = (q1, .Reserved)) :
    q.locked_for_rest_of_day = false ∧ q.calls_made < q.max_calls ∧
    q1 = ⟨q.calls_made + 1, q.max_calls, false⟩ := by
  rw [tryReserve] at h
  split at h
  · cases h
  next h4 =>
    split at h
    next h5 =>
      cases h
      refine ⟨by simpa using h4, h5, ?_⟩
      cases q
      simp_all
    · cases h

theorem tryReserve_denied_inv {q q1 : QuotaCounter} {r : DenyReason}
    (h : tryReserve q = (q1, .Denied r)) : q1 = q := by
  rw [tryReserve] at h
  split at h
  · cases h
    rfl
  · split at h
    · cases h
    · cases h
      rfl

theorem fetchGate_rejected_state {cfg : Config} {s : SysState} {k : Key} {now : Time}
    {r : GateReject} {s1 : SysState} (h : fetchGate cfg s k now = (.Rejected r, s1)) :
    s1 = s := by
  rw [fetchGate] at h
  split at h
  · cases h
    rfl
  · split at h
    · cases h
      rfl
    · split at h
      · cases h
        rfl
      · rcases htr : tryReserve s.quota with ⟨q1, rr⟩
        rw [htr] at h
        cases rr with
        | Reserved => cases h
        | Denied r2 =>
            cases h
            rfl

theorem fetchGate_authorized_inv {cfg : Config} {s : SysState} {k : Key} {now : Time}
    {s1 : SysState} (h : fetchGate cfg s k now = (.Authorized, s1)) :
    isInScope cfg k.date = true ∧
    recordBlocks now (s.records k) = false ∧
    cooldownActive cfg s now = false ∧
    s.quota.locked_for_rest_of_day = false ∧
    s.quota.calls_made < s.quota.max_calls ∧
    s1 = ⟨⟨s.quota.calls_made + 1, s.quota.max_calls, false⟩,
          setRecord s.records k .attempted, some now, s.store⟩ := by
  rw [fetchGate] at h
  split at h
  · cases h
  next h1 =>
    split at h
    · cases h
    next h2 =>
      split at h
      · cases h
      next h3 =>
        rcases htr : tryReserve s.quota with ⟨q1, rr⟩
        rw [htr] at h
        cases rr with
        | Reserved =>
            cases h
            obtain ⟨hl, hlt, hq1⟩ := tryReserve_reserved_inv htr
            subst hq1
            exact ⟨by simpa using h1, by simpa using h2, by simpa using h3, hl, hlt, rfl⟩
        | Denied r2 => cases h

theorem setRecord_self (r : Key → Option FetchRecord) (k : Key) (v : FetchRecord) :
    setRecord r k v k = some v := by
  rw [setRecord, if_pos rfl]

theorem setRecord_other (r : Key → Option FetchRecord) (k k2 : Key) (v : FetchRecord)
    (h : ¬ k2 = k) : setRecord r k v k2 = r k2 := by
  rw [setRecord, if_neg h]

theorem setStore_self (st : Key → Option SnapshotEntry) (k : Key) (v : SnapshotEntry) :
    setStore st k v k = some v := by
  rw [setStore, if_pos rfl]

theorem setStore_other (st : Key → Option SnapshotEntry) (k k2 : Key) (v : SnapshotEntry)
    (h : ¬ k2 = k) : setStore st k v k2 = st k2 := by
  rw [setStore, if_neg h]

theorem serveCached_parts (s : SysState) (en : SnapshotEntry) (st : Bool) :
    (serveCached s en st).2.1 = s ∧ (serveCached s en st).2.2 = false := by
  rw [serveCached]
  cases en.payload <;> exact ⟨rfl, rfl⟩

theorem failServe_parts (s : SysState) (k : Key) (now : Time)
    (prior : Option SnapshotEntry) (backoff : Nat) :
    (failServe s k now prior backoff).2.2 = true ∧
    (failServe s k now prior backoff).2.1.records = s.records ∧
    (failServe s k now prior backoff).2.1.quota = s.quota ∧
    (failServe s k now prior backoff).2.1.store =
      setStore s.store k
        (match prior with
         | some old => { old with errorState := true, next_retry_at := now + backoff }
         | none => ⟨none, now, true, now + backoff⟩) := by
  cases prior with
  | none => simp [failServe]
  | some old => cases hp : old.payload <;> simp [failServe, hp]

theorem fetchGate_blocked (cfg : Config) (s : SysState) (k : Key) (now : Time)
    (hb : recordBlocks now (s.records k) = true) :
    fetchGate cfg s k now = (.Rejected .not_in_scope, s) ∨
    fetchGate cfg s k now = (.Rejected .already_attempted_today, s) := by
  rw [fetchGate]
  by_cases h1 : isInScope cfg k.date = false
  · rw [if_pos h1]
    exact Or.inl rfl
  · rw [if_neg h1, if_pos hb]
    exact Or.inr rfl

theorem refreshAndServe_gate_rejected {cfg : Config} {s : SysState} {k : Key} {now : Time}
    {up : UpstreamResult} {prior : Option SnapshotEntry} {r : GateReject} {s1 : SysState}
    (hg : fetchGate cfg s k now = (.Rejected r, s1)) :
    (refreshAndServe cfg s k now up prior).2.1 = s ∧
    (refreshAndServe cfg s k now up prior).2.2 = false := by
  have hs1 : s1 = s := fetchGate_rejected_state hg
  rw [refreshAndServe, hg]
  cases prior with
  | none => exact ⟨hs1, rfl⟩
  | some en =>
      rw [hs1]
      exact serveCached_parts s en true

theorem refreshAndServe_locked_no_call (cfg : Config) (s : SysState) (k : Key) (now : Time)
    (up : UpstreamResult) (prior : Option SnapshotEntry)
    (h : s.quota.locked_for_rest_of_day = true) :
    (refreshAndServe cfg s k now up prior).2.2 = false := by
  rcases hg : fetchGate cfg s k now with ⟨g, s1⟩
  cases g with
  | Authorized =>
      have hfree := (fetchGate_authorized_inv hg).2.2.2.1
      rw [h] at hfree
      cases hfree
  | Rejected r => exact (refreshAndServe_gate_rejected hg).2

theorem getSnapshot_locked_no_call (cfg : Config) (s : SysState) (k : Key) (now : Time)
    (up : UpstreamResult) (h : s.quota.locked_for_rest_of_day = true) :
    (getSnapshot cfg s k now up).2.2 = false := by
  rw [getSnapshot]
  cases hst : s.store k with
  | none => exact refreshAndServe_locked_no_call cfg s k now up none h
  | some en =>
      dsimp only
      by_cases he : en.errorState = true
      · rw [if_pos he]
        by_cases hr : now < en.next_retry_at
        · rw [if_pos hr]
          exact (serveCached_parts s en true).2
        · rw [if_neg hr]
          exact refreshAndServe_locked_no_call cfg s k now up (some en) h
      · rw [if_neg he]
        by_cases hf : now - en.fetched_at < cfg.ttl
        · rw [if_pos hf]
          exact (serveCached_parts s en false).2
        · rw [if_neg hf]
          exact refreshAndServe_locked_no_call cfg s k now up (some en) h

theorem getSnapshot_fresh_no_call (cfg : Config) (s : SysState) (k : Key) (now : Time)
    (up : UpstreamResult) (en : SnapshotEntry) (hst : s.store k = some en)
    (he : en.errorState = false) (hf : now - en.fetched_at < cfg.ttl) :
    (getSnapshot cfg s k now up).2.2 = false := by
  rw [getSnapshot, hst]
  dsimp only
  rw [if_neg (by simp [he]), if_pos hf]
  exact (serveCached_parts s en false).2

theorem getSnapshot_backoff_no_call (cfg : Config) (s : SysState) (k : Key) (now : Time)
    (up : UpstreamResult) (en : SnapshotEntry) (hst : s.store k = some en)
    (he : en.errorState = true) (hr : now < en.next_retry_at) :
    (getSnapshot cfg s k now up).2.2 = false := by
  rw [getSnapshot, hst]
  dsimp only
  rw [if_pos he, if_pos hr]
  exact (serveCached_parts s en true).2

theorem refreshAndServe_keeps_attempted (cfg : Config) (s : SysState) (k k2 : Key)
    (now : Time) (up : UpstreamResult) (prior : Option SnapshotEntry)
    (h : s.records k = some .attempted) :
    ((refreshAndServe cfg s k2 now up prior).2.1).records k = some .attempted := by
  rcases hg : fetchGate cfg s k2 now with ⟨g, s1⟩
  cases g with
  | Rejected r =>
      rw [(refreshAndServe_gate_rejected hg).1]
      exact h
  | Authorized =>
      obtain ⟨_, hblock, _, _, _, hs1⟩ := fetchGate_authorized_inv hg
      have hk2 : ¬ k = k2 := by
        intro hc
        subst hc
        rw [h] at hblock
        rw [recordBlocks] at hblock
        cases hblock
      have hs1rec : s1.records k = some .attempted := by
        rw [hs1]
        show setRecord s.records k2 .attempted k = some .attempted
        rw [setRecord_other _ _ _ _ hk2]
        exact h
      rw [refreshAndServe, hg]
      cases up with
      | Success p => exact hs1rec
      | DailyLimitReached =>
          rw [(failServe_parts _ k2 now prior cfg.error_retry).2.1]
          exact hs1rec
      | FatalError =>
          rw [(failServe_parts _ k2 now prior cfg.error_retry).2.1]
          exact hs1rec
      | TransientError =>
          rw [(failServe_parts _ k2 now prior cfg.transient_retry).2.1]
          show setRecord s1.records k2 (.transientRetry (now + cfg.transient_retry)) k =
            some .attempted
          rw [setRecord_other _ _ _ _ hk2]
          exact hs1rec

theorem getSnapshot_state_cases (cfg : Config) (s : SysState) (k : Key) (now : Time)
    (up : UpstreamResult) :
    ((getSnapshot cfg s k now up).2.1 = s ∧ (getSnapshot cfg s k now up).2.2 = false) ∨
    getSnapshot cfg s k now up = refreshAndServe cfg s k now up (s.store k) := by
  rw [getSnapshot]
  cases hst : s.store k with
  | none => exact Or.inr rfl
  | some en =>
      dsimp only
      by_cases he : en.errorState = true
      · rw [if_pos he]
        by_cases hr : now < en.next_retry_at
        · rw [if_pos hr]
          exact Or.inl (serveCached_parts s en true)
        · rw [if_neg hr]
          exact Or.inr rfl
      · rw [if_neg he]
        by_cases hf : now - en.fetched_at < cfg.ttl
        · rw [if_pos hf]
          exact Or.inl (serveCached_parts s en false)
        · rw [if_neg hf]
          exact Or.inr rfl

theorem getSnapshot_keeps_attempted (cfg : Config) (s : SysState) (k k2 : Key)
    (now : Time) (up : UpstreamResult) (h : s.records k = some .attempted) :
    ((getSnapshot cfg s k2 now up).2.1).records k = some .attempted ∧
    (k2 = k → (getSnapshot cfg s k2 now up).2.2 = false) := by
  rcases getSnapshot_state_cases cfg s k2 now up with ⟨hs, hc⟩ | heq
  · exact ⟨by rw [hs]; exact h, fun _ => hc⟩
  · rw [heq]
    refine ⟨refreshAndServe_keeps_attempted cfg s k k2 now up (s.store k2) h, ?_⟩
    intro hk
    subst hk
    have hb : recordBlocks now (s.records k2) = true := by
      rw [h, recordBlocks]
    rcases fetchGate_blocked cfg s k2 now hb with hg | hg
    · exact (refreshAndServe_gate_rejected hg).2
    · exact (refreshAndServe_gate_rejected hg).2

theorem getSnapshot_success_sets_attempted (cfg : Config) (s : SysState) (k : Key)
    (now : Time) (p : Payload)
    (hcall : (getSnapshot cfg s k now (.Success p)).2.2 = true) :
    ((getSnapshot cfg s k now (.Success p)).2.1).records k = some .attempted := by
  rcases getSnapshot_state_cases cfg s k now (.Success p) with ⟨_, hc⟩ | heq
  · rw [hc] at hcall
    cases hcall
  · rw [heq] at hcall ⊢
    rcases hg : fetchGate cfg s k now with ⟨g, s1⟩
    cases g with
    | Rejected r =>
        rw [(refreshAndServe_gate_rejected hg).2] at hcall
        cases hcall
    | Authorized =>
        obtain ⟨_, _, _, _, _, hs1⟩ := fetchGate_authorized_inv hg
        rw [refreshAndServe, hg]
        show s1.records k = some .attempted
        rw [hs1]
        exact setRecord_self _ _ _

theorem isSuccess_inv {up : UpstreamResult} (h : isSuccess up = true) :
    ∃ p, up = .Success p := by
  cases up with
  | Success p => exact ⟨p, rfl⟩
  | DailyLimitReached => cases h
  | TransientError => cases h
  | FatalError => cases h

theorem successCount_le_one_aux : ∀ (evts : List ReadEvent) (cfg : Config) (k : Key)
    (s : SysState),
    (s.records k = some .attempted → successCount cfg k s evts = 0) ∧
    successCount cfg k s evts ≤ 1 := by
  intro evts
  induction evts with
  | nil => exact fun cfg k s => ⟨fun _ => rfl, by norm_num [successCount]⟩
  | cons e es ih =>
      intro cfg k s
      rw [successCount]
      constructor
      · intro hatt
        have hstep := getSnapshot_keeps_attempted cfg s k e.k e.now e.up hatt
        rw [if_neg ?hcond, (ih cfg k _).1 hstep.1]
        case hcond =>
          rintro ⟨hek, hcall, _⟩
          rw [hstep.2 hek] at hcall
          cases hcall
      · by_cases hc : e.k = k ∧ (getSnapshot cfg s e.k e.now e.up).2.2 = true ∧
            isSuccess e.up = true
        · rw [if_pos hc]
          obtain ⟨hek, hcall, hsu⟩ := hc
          obtain ⟨p, hp⟩ := isSuccess_inv hsu
          subst hek
          rw [hp] at hcall ⊢
          have hset := getSnapshot_success_sets_attempted cfg s e.k e.now p hcall
          rw [(ih cfg e.k _).1 hset]
        · rw [if_neg hc]
          have := (ih cfg k ((getSnapshot cfg s e.k e.now e.up).2.1)).2
          omega

theorem two_stale_reads_one_call
    (cfg : Config) (s : SysState) (k : Key) (en : SnapshotEntry) (now : Time)
    (up1 up2 : UpstreamResult)
    (htr : 0 < cfg.transient_retry)
    (hst : s.store k = some en) (herr : en.errorState = false)
    (hstale : ¬ (now - en.fetched_at < cfg.ttl))
    (hrec : s.records k = none) (hlast : s.lastCallAt = none)
    (hscope : isInScope cfg k.date = true)
    (hlok : s.quota.locked_for_rest_of_day = false)
    (hlt : s.quota.calls_made < s.quota.max_calls) :
    upstreamCount cfg k s [⟨k, now, up1⟩, ⟨k, now, up2⟩] = 1 := by
  have hcd : cooldownActive cfg s now = false := by
    rw [cooldownActive, hlast]
  have hg : fetchGate cfg s k now =
      (.Authorized,
        ⟨⟨s.quota.calls_made + 1, s.quota.max_calls, s.quota.locked_for_rest_of_day⟩,
         setRecord s.records k .attempted, some now, s.store⟩) := by
    rw [fetchGate, if_neg (by simp [hscope]), hrec,
      if_neg (by simp [recordBlocks]), if_neg (by simp [hcd]), tryReserve,
      if_neg (by simp [hlok]), if_pos hlt]
  have hr1 : getSnapshot cfg s k now up1 = refreshAndServe cfg s k now up1 (some en) := by
    rw [getSnapshot, hst]
    dsimp only
    rw [if_neg (by simp [herr]), if_neg hstale]
  cases up1 with
  | Success p =>
      have hr1' : getSnapshot cfg s k now (.Success p) =
          (.Ok ⟨p, .live, now, false⟩,
           ⟨⟨s.quota.calls_made + 1, s.quota.max_calls, s.quota.locked_for_rest_of_day⟩,
            setRecord s.records k .attempted, some now,
            setStore s.store k ⟨some p, now, false, 0⟩⟩,
           true) := by
        rw [hr1, refreshAndServe, hg]
      have h2 : (getSnapshot cfg
          ⟨⟨s.quota.calls_made + 1, s.quota.max_calls, s.quota.locked_for_rest_of_day⟩,
           setRecord s.records k .attempted, some now,
           setStore s.store k ⟨some p, now, false, 0⟩⟩ k now up2).2.2 = false := by
        by_cases httl : 0 < cfg.ttl
        · exact getSnapshot_fresh_no_call cfg _ k now up2 ⟨some p, now, false, 0⟩
            (setStore_self _ _ _) rfl (by simpa [Nat.sub_self] using httl)
        · exact (getSnapshot_keeps_attempted cfg _ k k now up2 (setRecord_self _ _ _)).2 rfl
      simp [upstreamCount, hr1', h2]
  | DailyLimitReached =>
      have hr1' : getSnapshot cfg s k now .DailyLimitReached =
          failServe
            ⟨⟨s.quota.calls_made + 1, s.quota.max_calls, true⟩,
             setRecord s.records k .attempted, some now, s.store⟩
            k now (some en) cfg.error_retry := by
        rw [hr1, refreshAndServe, hg]
        rfl
      have hparts := failServe_parts
        ⟨⟨s.quota.calls_made + 1, s.quota.max_calls, true⟩,
         setRecord s.records k .attempted, some now, s.store⟩ k now (some en) cfg.error_retry
      have h2 : (getSnapshot cfg
          (failServe
            ⟨⟨s.quota.calls_made + 1, s.quota.max_calls, true⟩,
             setRecord s.records k .attempted, some now, s.store⟩
            k now (some en) cfg.error_retry).2.1 k now up2).2.2 = false := by
        by_cases hb : now < now + cfg.error_retry
        · refine getSnapshot_backoff_no_call cfg _ k now up2
            { en with errorState := true, next_retry_at := now + cfg.error_retry } ?_ rfl hb
          rw [hparts.2.2.2]
          exact setStore_self _ _ _
        · have hrecA : (failServe
              ⟨⟨s.quota.calls_made + 1, s.quota.max_calls, true⟩,
               setRecord s.records k .attempted, some now, s.store⟩
              k now (some en) cfg.error_retry).2.1.records k = some .attempted := by
            rw [hparts.2.1]
            exact setRecord_self _ _ _
          exact (getSnapshot_keeps_attempted cfg _ k k now up2 hrecA).2 rfl
      simp [upstreamCount, hr1', h2, hparts.1]
  | FatalError =>
      have hr1' : getSnapshot cfg s k now .FatalError =
          failServe
            ⟨⟨s.quota.calls_made + 1, s.quota.max_calls, s.quota.locked_for_rest_of_day⟩,
             setRecord s.records k .attempted, some now, s.store⟩
            k now (some en) cfg.error_retry := by
        rw [hr1, refreshAndServe, hg]
      have hparts := failServe_parts
        ⟨⟨s.quota.calls_made + 1, s.quota.max_calls, s.quota.locked_for_rest_of_day⟩,
         setRecord s.records k .attempted, some now, s.store⟩ k now (some en) cfg.error_retry
      have h2 : (getSnapshot cfg
          (failServe
            ⟨⟨s.quota.calls_made + 1, s.quota.max_calls, s.quota.locked_for_rest_of_day⟩,
             setRecord s.records k .attempted, some now, s.store⟩
            k now (some en) cfg.error_retry).2.1 k now up2).2.2 = false := by
        by_cases hb : now < now + cfg.error_retry
        · refine getSnapshot_backoff_no_call cfg _ k now up2
            { en with errorState := true, next_retry_at := now + cfg.error_retry } ?_ rfl hb
          rw [hparts.2.2.2]
          exact setStore_self _ _ _
        · have hrecA : (failServe
              ⟨⟨s.quota.calls_made + 1, s.quota.max_calls, s.quota.locked_for_rest_of_day⟩,
               setRecord s.records k .attempted, some now, s.store⟩
              k now (some en) cfg.error_retry).2.1.records k = some .attempted := by
            rw [hparts.2.1]
            exact setRecord_self _ _ _
          exact (getSnapshot_keeps_attempted cfg _ k k now up2 hrecA).2 rfl
      simp [upstreamCount, hr1', h2, hparts.1]
  | TransientError =>
      have hr1' : getSnapshot cfg s k now .TransientError =
          failServe
            ⟨⟨s.quota.calls_made + 1, s.quota.max_calls, s.quota.locked_for_rest_of_day⟩,
             setRecord (setRecord s.records k .attempted) k
               (.transientRetry (now + cfg.transient_retry)),
             some now, s.store⟩
            k now (some en) cfg.transient_retry := by
        rw [hr1, refreshAndServe, hg]
      have hparts := failServe_parts
        ⟨⟨s.quota.calls_made + 1, s.quota.max_calls, s.quota.locked_for_rest_of_day⟩,
         setRecord (setRecord s.records k .attempted) k
           (.transientRetry (now + cfg.transient_retry)),
         some now, s.store⟩ k now (some en) cfg.transient_retry
      have h2 : (getSnapshot cfg
          (failServe
            ⟨⟨s.quota.calls_made + 1, s.quota.max_calls, s.quota.locked_for_rest_of_day⟩,
             setRecord (setRecord s.records k .attempted) k
               (.transientRetry (now + cfg.transient_retry)),
             some now, s.store⟩
            k now (some en) cfg.transient_retry).2.1 k now up2).2.2 = false := by
        refine getSnapshot_backoff_no_call cfg _ k now up2
          { en with errorState := true, next_retry_at := now + cfg.transient_retry } ?_ rfl
          (Nat.lt_add_of_pos_right htr)
        rw [hparts.2.2.2]
        exact setStore_self _ _ _
      simp [upstreamCount, hr1', h2, hparts.1]

/-- Claim C1: within one logical day (the model state carries a single
day's fetch records and counter), any sequence of read requests makes at
most one Success-classified upstream call per `(kind, date)` key; and two
simultaneous stale-cache reads for the same key cause exactly one
upstream call. -/
theorem single_success_per_key :
    (∀ (cfg : Config) (k : Key) (s : SysState) (evts : List ReadEvent),
      successCount cfg k s evts ≤ 1) ∧
    (∀ (cfg : Config) (s : SysState) (k : Key) (en : SnapshotEntry) (now : Time)
        (up1 up2 : UpstreamResult),
      0 < cfg.transient_retry →
      s.store k = some en → en.errorState = false →
      ¬ (now - en.fetched_at < cfg.ttl) →
      s.records k = none → s.lastCallAt = none →
      isInScope cfg k.date = true →
      s.quota.locked_for_rest_of_day = false →
      s.quota.calls_made < s.quota.max_calls →
      upstreamCount cfg k s [⟨k, now, up1⟩, ⟨k, now, up2⟩] = 1) :=
  ⟨fun cfg k s evts => (successCount_le_one_aux evts cfg k s).2, two_stale_reads_one_call⟩

/-- Witness for C1: two stale reads of one key from a concrete state make
exactly one upstream call. -/
theorem single_success_per_key_witness :
    upstreamCount ⟨10, 1, 30, 5, 100, false⟩ ⟨.fixtures, 100⟩
      ⟨⟨0, 40, false⟩, fun _ => none, none,
       fun k2 => if k2 = ⟨.fixtures, 100⟩ then some ⟨some [7], 0, false, 0⟩ else none⟩
      [⟨⟨.fixtures, 100⟩, 50, .Success [9]⟩, ⟨⟨.fixtures, 100⟩, 50, .Success [9]⟩] = 1 :=
  single_success_per_key.2 ⟨10, 1, 30, 5, 100, false⟩
    ⟨⟨0, 40, false⟩, fun _ => none, none,
     fun k2 => if k2 = ⟨.fixtures, 100⟩ then some ⟨some [7], 0, false, 0⟩ else none⟩
    ⟨.fixtures, 100⟩ ⟨some [7], 0, false, 0⟩ 50 (.Success [9]) (.Success [9])
    (by decide) (by decide) rfl (by decide) rfl rfl (by decide) rfl (by decide)

theorem ledger_calls_le_aux : ∀ (ops : List LedgerOp) (q : QuotaCounter),
    q.calls_made ≤ q.max_calls →
    (applyLedgerOps q ops).calls_made ≤ (applyLedgerOps q ops).max_calls ∧
    (applyLedgerOps q ops).max_calls = q.max_calls := by
  intro ops
  induction ops with
  | nil =>
      intro q h
      exact ⟨h, rfl⟩
  | cons op ops ih =>
      intro q h
      have hstep : (applyLedgerOp q op).calls_made ≤ (applyLedgerOp q op).max_calls ∧
          (applyLedgerOp q op).max_calls = q.max_calls := by
        cases op with
        | reserve =>
            rw [applyLedgerOp, tryReserve]
            by_cases h1 : q.locked_for_rest_of_day = true
            · rw [if_pos h1]
              exact ⟨h, rfl⟩
            · rw [if_neg h1]
              by_cases h2 : q.calls_made < q.max_calls
              · rw [if_pos h2]
                exact ⟨h2, rfl⟩
              · rw [if_neg h2]
                exact ⟨h, rfl⟩
        | recordDailyLimit => exact ⟨h, rfl⟩
        | rollover => exact ⟨Nat.zero_le _, rfl⟩
      have hrest := ih (applyLedgerOp q op) hstep.1
      exact ⟨hrest.1, hrest.2.trans hstep.2⟩

theorem ledger_locked_aux : ∀ (ops : List LedgerOp) (q : QuotaCounter),
    q.locked_for_rest_of_day = true → (∀ op ∈ ops, op ≠ .rollover) →
    (applyLedgerOps q ops).locked_for_rest_of_day = true := by
  intro ops
  induction ops with
  | nil =>
      intro q h _
      exact h
  | cons op ops ih =>
      intro q h hops
      have hstep : (applyLedgerOp q op).locked_for_rest_of_day = true := by
        cases op with
        | reserve =>
            rw [applyLedgerOp, tryReserve, if_pos h]
            exact h
        | recordDailyLimit => rfl
        | rollover => exact absurd rfl (hops .rollover (List.mem_cons_self _ _))
      exact ih (applyLedgerOp q op) hstep (fun o ho => hops o (List.mem_cons_of_mem _ ho))

/-- Claim C2: `calls_made` never exceeds `max_calls` in any state
reachable from a fresh daily counter; once `locked_for_rest_of_day` is
true, `tryReserve` returns Denied and no upstream call is attempted, and
the lock persists under every ledger operation except the day rollover,
which creates a fresh unlocked counter. -/
theorem quota_never_exceeded_and_lock :
    (∀ (maxc : Nat) (ops : List LedgerOp),
      (applyLedgerOps ⟨0, maxc, false⟩ ops).calls_made ≤ maxc) ∧
    (∀ q : QuotaCounter, q.locked_for_rest_of_day = true →
      tryReserve q = (q, .Denied .locked)) ∧
    (∀ (q : QuotaCounter) (ops : List LedgerOp),
      q.locked_for_rest_of_day = true → (∀ op ∈ ops, op ≠ .rollover) →
      tryReserve (applyLedgerOps q ops) = (applyLedgerOps q ops, .Denied .locked)) ∧
    (∀ (cfg : Config) (s : SysState) (k : Key) (now : Time) (up : UpstreamResult),
      s.quota.locked_for_rest_of_day = true →
      (getSnapshot cfg s k now up).2.2 = false) ∧
    (∀ q : QuotaCounter, applyLedgerOp q .rollover = ⟨0, q.max_calls, false⟩) := by
  refine ⟨?_, ?_, ?_, getSnapshot_locked_no_call, fun q => rfl⟩
  · intro maxc ops
    have h := ledger_calls_le_aux ops ⟨0, maxc, false⟩ (Nat.zero_le _)
    calc (applyLedgerOps ⟨0, maxc, false⟩ ops).calls_made
        ≤ (applyLedgerOps ⟨0, maxc, false⟩ ops).max_calls := h.1
      _ = maxc := h.2
  · intro q h
    rw [tryReserve, if_pos h]
  · intro q ops h hops
    rw [tryReserve, if_pos (ledger_locked_aux ops q h hops)]

/-- Witness for C2 at a concrete over-budget run and a locked ledger. -/
theorem quota_never_exceeded_and_lock_witness :
    (applyLedgerOps ⟨0, 2, false⟩ [.reserve, .reserve, .reserve]).calls_made ≤ 2 ∧
    tryReserve ⟨3, 40, true⟩ = (⟨3, 40, true⟩, .Denied .locked) ∧
    (getSnapshot ⟨10, 1, 30, 5, 100, false⟩
      ⟨⟨0, 40, true⟩, fun _ => none, none, fun _ => none⟩
      ⟨.fixtures, 100⟩ 5 .FatalError).2.2 = false :=
  ⟨quota_never_exceeded_and_lock.1 2 [.reserve, .reserve, .reserve],
   quota_never_exceeded_and_lock.2.1 ⟨3, 40, true⟩ rfl,
   quota_never_exceeded_and_lock.2.2.2.1 ⟨10, 1, 30, 5, 100, false⟩
     ⟨⟨0, 40, true⟩, fun _ => none, none, fun _ => none⟩ ⟨.fixtures, 100⟩ 5 .FatalError rfl⟩

/-- Claim C3: `tryReserve` checks `locked_for_rest_of_day = false` and
`calls_made < max_calls` in one step; when both hold it increments
`calls_made` and returns Reserved, otherwise it leaves the counter
unchanged and returns Denied with reason locked or budget_exhausted. -/
theorem tryReserve_spec :
    ∀ q : QuotaCounter,
      (q.locked_for_rest_of_day = false → q.calls_made < q.max_calls →
        tryReserve q = (⟨q.calls_made + 1, q.max_calls, false⟩, .Reserved)) ∧
      (q.locked_for_rest_of_day = true → tryReserve q = (q, .Denied .locked)) ∧
      (q.locked_for_rest_of_day = false → ¬ q.calls_made < q.max_calls →
        tryReserve q = (q, .Denied .budget_exhausted)) := by
  intro q
  obtain ⟨c, m, l⟩ := q
  refine ⟨fun h1 h2 => ?_, fun h1 => ?_, fun h1 h2 => ?_⟩
  · subst h1
    rw [tryReserve, if_neg (by simp), if_pos h2]
  · subst h1
    rw [tryReserve, if_pos rfl]
  · subst h1
    rw [tryReserve, if_neg (by simp), if_neg h2]

/-- Witness for C3 on concrete counters. -/
theorem tryReserve_spec_witness :
    tryReserve ⟨0, 40, false⟩ = (⟨1, 40, false⟩, .Reserved) ∧
    tryReserve ⟨5, 40, true⟩ = (⟨5, 40, true⟩, .Denied .locked) ∧
    tryReserve ⟨40, 40, false⟩ = (⟨40, 40, false⟩, .Denied .budget_exhausted) :=
  ⟨(tryReserve_spec ⟨0, 40, false⟩).1 rfl (by norm_num),
   (tryReserve_spec ⟨5, 40, true⟩).2.1 rfl,
   (tryReserve_spec ⟨40, 40, false⟩).2.2 rfl (by norm_num)⟩

theorem getSnapshot_fresh_serve (cfg : Config) (st : SysState) (k : Key) (en : SnapshotEntry)
    (p : Payload) (hst : st.store k = some en) (herr : en.errorState = false)
    (hp : en.payload = some p) (now2 : Time) (up2 : UpstreamResult)
    (hf : now2 - en.fetched_at < cfg.ttl) :
    getSnapshot cfg st k now2 up2 = (.Ok ⟨p, .cache, en.fetched_at, false⟩, st, false) := by
  rw [getSnapshot, hst]
  dsimp only
  rw [if_neg (by simp [herr]), if_pos hf, serveCached, hp]

/-- Claim C5: a Fresh entry is served from cache with its stored payload
and `stale = false`, with no upstream call and no state change; the
result does not depend on the quota, the fetch records or the cooldown
timer (the gate is never consulted), and repeated reads while the entry
stays fresh return the identical payload. -/
theorem fresh_entry_cache_idempotent :
    ∀ (cfg : Config) (s : SysState) (k : Key) (now : Time) (up : UpstreamResult)
      (en : SnapshotEntry) (p : Payload),
      s.store k = some en → en.errorState = false → en.payload = some p →
      now - en.fetched_at < cfg.ttl →
      getSnapshot cfg s k now up = (.Ok ⟨p, .cache, en.fetched_at, false⟩, s, false) ∧
      (∀ (q2 : QuotaCounter) (r2 : Key → Option FetchRecord) (l2 : Option Time),
        getSnapshot cfg ⟨q2, r2, l2, s.store⟩ k now up =
          (.Ok ⟨p, .cache, en.fetched_at, false⟩, ⟨q2, r2, l2, s.store⟩, false)) ∧
      (∀ (now2 : Time) (up2 : UpstreamResult), now2 - en.fetched_at < cfg.ttl →
        getSnapshot cfg ((getSnapshot cfg s k now up).2.1) k now2 up2 =
          (.Ok ⟨p, .cache, en.fetched_at, false⟩, s, false)) := by
  intro cfg s k now up en p hst herr hp hf
  refine ⟨getSnapshot_fresh_serve cfg s k en p hst herr hp now up hf,
    fun q2 r2 l2 => getSnapshot_fresh_serve cfg ⟨q2, r2, l2, s.store⟩ k en p hst herr hp now up hf,
    ?_⟩
  intro now2 up2 hf2
  rw [getSnapshot_fresh_serve cfg s k en p hst herr hp now up hf]
  exact getSnapshot_fresh_serve cfg s k en p hst herr hp now2 up2 hf2

/-- Witness for C5 on a concrete fresh entry. -/
theorem fresh_entry_cache_idempotent_witness :
    getSnapshot ⟨10, 1, 30, 5, 100, false⟩
      ⟨⟨0, 40, false⟩, fun _ => none, none,
       fun k2 => if k2 = ⟨.fixtures, 100⟩ then some ⟨some [7], 0, false, 0⟩ else none⟩
      ⟨.fixtures, 100⟩ 5 .FatalError =
      (.Ok ⟨[7], .cache, 0, false⟩,
       ⟨⟨0, 40, false⟩, fun _ => none, none,
        fun k2 => if k2 = ⟨.fixtures, 100⟩ then some ⟨some [7], 0, false, 0⟩ else none⟩,
       false) :=
  (fresh_entry_cache_idempotent ⟨10, 1, 30, 5, 100, false⟩
    ⟨⟨0, 40, false⟩, fun _ => none, none,
     fun k2 => if k2 = ⟨.fixtures, 100⟩ then some ⟨some [7], 0, false, 0⟩ else none⟩
    ⟨.fixtures, 100⟩ 5 .FatalError ⟨some [7], 0, false, 0⟩ [7]
    rfl rfl rfl (by decide)).1

theorem getSnapshot_success_store (cfg : Config) (s : SysState) (k : Key) (now : Time)
    (p : Payload) (hcall : (getSnapshot cfg s k now (.Success p)).2.2 = true) :
    ((getSnapshot cfg s k now (.Success p)).2.1).store k = some ⟨some p, now, false, 0⟩ := by
  rcases getSnapshot_state_cases cfg s k now (.Success p) with ⟨_, hc⟩ | heq
  · rw [hc] at hcall
    cases hcall
  · rw [heq] at hcall ⊢
    rcases hg : fetchGate cfg s k now with ⟨g, s1⟩
    cases g with
    | Rejected r =>
        rw [(refreshAndServe_gate_rejected hg).2] at hcall
        cases hcall
    | Authorized =>
        rw [refreshAndServe, hg]
        exact setStore_self _ _ _

/-- Claim C6: a Success fetch stores the payload exactly as received, and
any next `getSnapshot` for that key before the TTL expires returns it
byte-identical from cache. -/
theorem success_payload_round_trip :
    ∀ (cfg : Config) (s : SysState) (k : Key) (now : Time) (p : Payload),
      (getSnapshot cfg s k now (.Success p)).2.2 = true →
      ((getSnapshot cfg s k now (.Success p)).2.1).store k = some ⟨some p, now, false, 0⟩ ∧
      (∀ (now2 : Time) (up2 : UpstreamResult), now2 - now < cfg.ttl →
        (getSnapshot cfg ((getSnapshot cfg s k now (.Success p)).2.1) k now2 up2).1 =
          .Ok ⟨p, .cache, now, false⟩) := by
  intro cfg s k now p hcall
  have hstore := getSnapshot_success_store cfg s k now p hcall
  refine ⟨hstore, ?_⟩
  intro now2 up2 hf2
  rw [getSnapshot_fresh_serve cfg _ k ⟨some p, now, false, 0⟩ p hstore rfl rfl now2 up2 hf2]

/-- Witness for C6 on a concrete fetched payload. -/
theorem success_payload_round_trip_witness :
    (getSnapshot ⟨10, 1, 30, 5, 100, false⟩
      ⟨⟨0, 40, false⟩, fun _ => none, none, fun _ => none⟩
      ⟨.fixtures, 100⟩ 5 (.Success [1, 2, 3])).2.1.store ⟨.fixtures, 100⟩ =
      some ⟨some [1, 2, 3], 5, false, 0⟩ ∧
    (getSnapshot ⟨10, 1, 30, 5, 100, false⟩
      ((getSnapshot ⟨10, 1, 30, 5, 100, false⟩
        ⟨⟨0, 40, false⟩, fun _ => none, none, fun _ => none⟩
        ⟨.fixtures, 100⟩ 5 (.Success [1, 2, 3])).2.1)
      ⟨.fixtures, 100⟩ 9 .FatalError).1 = .Ok ⟨[1, 2, 3], .cache, 5, false⟩ :=
  ⟨(success_payload_round_trip ⟨10, 1, 30, 5, 100, false⟩
      ⟨⟨0, 40, false⟩, fun _ => none, none, fun _ => none⟩
      ⟨.fixtures, 100⟩ 5 [1, 2, 3] (by decide)).1,
   (success_payload_round_trip ⟨10, 1, 30, 5, 100, false⟩
      ⟨⟨0, 40, false⟩, fun _ => none, none, fun _ => none⟩
      ⟨.fixtures, 100⟩ 5 [1, 2, 3] (by decide)).2 9 .FatalError (by decide)⟩

theorem recordBlocks_transient_open (s : SysState) (k : Key) (now r : Time)
    (hrec : s.records k = some (.transientRetry r)) (hr : r ≤ now) :
    recordBlocks now (s.records k) = false := by
  rw [hrec, recordBlocks]
  simpa using hr

/-- Claim C7: the Fetch Gate checks run in the fixed order scope →
daily-attempt record (the transient retry window being honoured instead
of the daily gate) → cooldown → quota reservation: each earlier rejection
holds for every value of the later inputs, a ledger denial maps to
budget_exhausted or locked, and on authorization the FetchRecord is
already claimed in the state handed to the upstream call. -/
theorem fetchGate_order :
    ∀ (cfg : Config) (s : SysState) (k : Key) (now : Time),
      (isInScope cfg k.date = false →
        fetchGate cfg s k now = (.Rejected .not_in_scope, s)) ∧
      (isInScope cfg k.date = true → s.records k = some .attempted →
        fetchGate cfg s k now = (.Rejected .already_attempted_today, s)) ∧
      (∀ r : Time, isInScope cfg k.date = true →
        s.records k = some (.transientRetry r) → now < r →
        fetchGate cfg s k now = (.Rejected .already_attempted_today, s)) ∧
      (∀ r : Time, s.records k = some (.transientRetry r) → r ≤ now →
        recordBlocks now (s.records k) = false) ∧
      (isInScope cfg k.date = true → recordBlocks now (s.records k) = false →
        cooldownActive cfg s now = true →
        fetchGate cfg s k now = (.Rejected .throttled, s)) ∧
      (isInScope cfg k.date = true → recordBlocks now (s.records k) = false →
        cooldownActive cfg s now = false → s.quota.locked_for_rest_of_day = true →
        fetchGate cfg s k now = (.Rejected .locked, s)) ∧
      (isInScope cfg k.date = true → recordBlocks now (s.records k) = false →
        cooldownActive cfg s now = false → s.quota.locked_for_rest_of_day = false →
        ¬ s.quota.calls_made < s.quota.max_calls →
        fetchGate cfg s k now = (.Rejected .budget_exhausted, s)) ∧
      (isInScope cfg k.date = true → recordBlocks now (s.records k) = false →
        cooldownActive cfg s now = false → s.quota.locked_for_rest_of_day = false →
        s.quota.calls_made < s.quota.max_calls →
        fetchGate cfg s k now =
          (.Authorized, ⟨⟨s.quota.calls_made + 1, s.quota.max_calls, false⟩,
            setRecord s.records k .attempted, some now, s.store⟩) ∧
        setRecord s.records k .attempted k = some .attempted) := by
  intro cfg s k now
  refine ⟨?_, ?_, ?_, fun r hrec hr => recordBlocks_transient_open s k now r hrec hr,
    ?_, ?_, ?_, ?_⟩
  · intro h1
    rw [fetchGate, if_pos h1]
  · intro h1 h2
    rw [fetchGate, if_neg (by simp [h1]), if_pos (by rw [h2, recordBlocks])]
  · intro r h1 h2 h3
    rw [fetchGate, if_neg (by simp [h1]), if_pos (by rw [h2, recordBlocks]; simpa using h3)]
  · intro h1 h2 h3
    rw [fetchGate, if_neg (by simp [h1]), if_neg (by simp [h2]), if_pos h3]
  · intro h1 h2 h3 h4
    rw [fetchGate, if_neg (by simp [h1]), if_neg (by simp [h2]), if_neg (by simp [h3]),
      tryReserve, if_pos h4]
    rfl
  · intro h1 h2 h3 h4 h5
    rw [fetchGate, if_neg (by simp [h1]), if_neg (by simp [h2]), if_neg (by simp [h3]),
      tryReserve, if_neg (by simp [h4]), if_neg h5]
    rfl
  · intro h1 h2 h3 h4 h5
    refine ⟨?_, setRecord_self _ _ _⟩
    conv_rhs => rw [← h4]
    rw [fetchGate, if_neg (by simp [h1]), if_neg (by simp [h2]), if_neg (by simp [h3]),
      tryReserve, if_neg (by simp [h4]), if_pos h5]

/-- Witness for C7: the daily-attempt rejection precedes throttling and
budget exhaustion, and throttling precedes budget exhaustion. -/
theorem fetchGate_order_witness :
    fetchGate ⟨10, 3, 30, 5, 100, false⟩
      ⟨⟨40, 40, false⟩,
       fun k2 => if k2 = ⟨.fixtures, 100⟩ then some .attempted else none,
       some 4, fun _ => none⟩
      ⟨.fixtures, 100⟩ 5 =
      (.Rejected .already_attempted_today,
       ⟨⟨40, 40, false⟩,
        fun k2 => if k2 = ⟨.fixtures, 100⟩ then some .attempted else none,
        some 4, fun _ => none⟩) ∧
    fetchGate ⟨10, 3, 30, 5, 100, false⟩
      ⟨⟨40, 40, false⟩, fun _ => none, some 4, fun _ => none⟩
      ⟨.fixtures, 100⟩ 5 =
      (.Rejected .throttled,
       ⟨⟨40, 40, false⟩, fun _ => none, some 4, fun _ => none⟩) :=
  ⟨(fetchGate_order ⟨10, 3, 30, 5, 100, false⟩
      ⟨⟨40, 40, false⟩,
       fun k2 => if k2 = ⟨.fixtures, 100⟩ then some .attempted else none,
       some 4, fun _ => none⟩
      ⟨.fixtures, 100⟩ 5).2.1 (by decide) (by decide),
   (fetchGate_order ⟨10, 3, 30, 5, 100, false⟩
      ⟨⟨40, 40, false⟩, fun _ => none, some 4, fun _ => none⟩
      ⟨.fixtures, 100⟩ 5).2.2.2.2.1 (by decide) (by decide) (by decide)⟩

theorem refreshAndServe_unavailable_iff (cfg : Config) (s : SysState) (k : Key) (now : Time)
    (up : UpstreamResult) (prior : Option SnapshotEntry) :
    ((refreshAndServe cfg s k now up prior).1 = .Unavailable ↔
      (match prior with
       | some en => en.payload
       | none => (none : Option Payload)) = none ∧
      ¬ ((refreshAndServe cfg s k now up prior).2.2 = true ∧ isSuccess up = true)) := by
  rcases hg : fetchGate cfg s k now with ⟨g, s1⟩
  cases g with
  | Rejected r =>
      rw [refreshAndServe, hg]
      cases prior with
      | none => simp
      | some en => cases hp : en.payload <;> simp [serveCached, hp]
  | Authorized =>
      rw [refreshAndServe, hg]
      cases up with
      | Success p => simp [isSuccess]
      | DailyLimitReached =>
          cases prior with
          | none => simp [failServe, isSuccess]
          | some en => cases hp : en.payload <;> simp [failServe, hp, isSuccess]
      | FatalError =>
          cases prior with
          | none => simp [failServe, isSuccess]
          | some en => cases hp : en.payload <;> simp [failServe, hp, isSuccess]
      | TransientError =>
          cases prior with
          | none => simp [failServe, isSuccess]
          | some en => cases hp : en.payload <;> simp [failServe, hp, isSuccess]

theorem getSnapshot_unavailable_iff (cfg : Config) (s : SysState) (k : Key) (now : Time)
    (up : UpstreamResult) :
    ((getSnapshot cfg s k now up).1 = .Unavailable ↔
      storedPayload s k = none ∧
      ¬ ((getSnapshot cfg s k now up).2.2 = true ∧ isSuccess up = true)) := by
  have hsp : storedPayload s k =
      (match s.store k with
       | some en => en.payload
       | none => (none : Option Payload)) := rfl
  rw [getSnapshot, hsp]
  cases hst : s.store k with
  | none => exact refreshAndServe_unavailable_iff cfg s k now up none
  | some en =>
      dsimp only
      by_cases he : en.errorState = true
      · rw [if_pos he]
        by_cases hr : now < en.next_retry_at
        · rw [if_pos hr]
          cases hp : en.payload <;> simp [serveCached, hp]
        · rw [if_neg hr]
          exact refreshAndServe_unavailable_iff cfg s k now up (some en)
      · rw [if_neg he]
        by_cases hf : now - en.fetched_at < cfg.ttl
        · rw [if_pos hf]
          cases hp : en.payload <;> simp [serveCached, hp]
        · rw [if_neg hf]
          exact refreshAndServe_unavailable_iff cfg s k now up (some en)

theorem gate_denied_serves_stale (cfg : Config) (s : SysState) (k : Key) (now : Time)
    (up : UpstreamResult) (en : SnapshotEntry) (p : Payload) (r : GateReject) (s1 : SysState)
    (hst : s.store k = some en) (hp : en.payload = some p)
    (helig : (en.errorState = true ∧ en.next_retry_at ≤ now) ∨
      (en.errorState = false ∧ ¬ (now - en.fetched_at < cfg.ttl)))
    (hg : fetchGate cfg s k now = (.Rejected r, s1)) :
    getSnapshot cfg s k now up = (.Ok ⟨p, .cache, en.fetched_at, true⟩, s, false) := by
  have hs1 : s1 = s := fetchGate_rejected_state hg
  rcases helig with ⟨he, hr⟩ | ⟨he, hf⟩
  · rw [getSnapshot, hst]
    dsimp only
    rw [if_pos he, if_neg (Nat.not_lt.mpr hr), refreshAndServe, hg]
    dsimp only
    rw [hs1]
    simp [serveCached, hp]
  · rw [getSnapshot, hst]
    dsimp only
    rw [if_neg (by simp [he]), if_neg hf, refreshAndServe, hg]
    dsimp only
    rw [hs1]
    simp [serveCached, hp]

/-- Claim C4 (amended): whenever the Fetch Gate denies an eligible
refresh, `getSnapshot` still serves the stored payload (when one exists)
from cache with `stale = true`; and `Unavailable` is returned exactly
when no cached payload exists and this read made no successful upstream
call (so either no live fetch could be attempted, or the attempted fetch
did not succeed). -/
theorem gate_denial_degrades :
    ∀ (cfg : Config) (s : SysState) (k : Key) (now : Time) (up : UpstreamResult),
      (∀ (en : SnapshotEntry) (p : Payload) (r : GateReject) (s1 : SysState),
        s.store k = some en → en.payload = some p →
        ((en.errorState = true ∧ en.next_retry_at ≤ now) ∨
          (en.errorState = false ∧ ¬ (now - en.fetched_at < cfg.ttl))) →
        fetchGate cfg s k now = (.Rejected r, s1) →
        getSnapshot cfg s k now up = (.Ok ⟨p, .cache, en.fetched_at, true⟩, s, false)) ∧
      ((getSnapshot cfg s k now up).1 = .Unavailable ↔
        storedPayload s k = none ∧
        ¬ ((getSnapshot cfg s k now up).2.2 = true ∧ isSuccess up = true)) :=
  fun cfg s k now up =>
    ⟨fun en p r s1 hst hp helig hg =>
      gate_denied_serves_stale cfg s k now up en p r s1 hst hp helig hg,
     getSnapshot_unavailable_iff cfg s k now up⟩

/-- Witness for C4: a budget-exhausted gate denial degrades to the stale
cached payload. -/
theorem gate_denial_degrades_witness :
    getSnapshot ⟨10, 3, 30, 5, 100, false⟩
      ⟨⟨40, 40, false⟩, fun _ => none, some 4,
       fun k2 => if k2 = ⟨.fixtures, 100⟩ then some ⟨some [7], 0, false, 0⟩ else none⟩
      ⟨.fixtures, 100⟩ 20 .FatalError =
      (.Ok ⟨[7], .cache, 0, true⟩,
       ⟨⟨40, 40, false⟩, fun _ => none, some 4,
        fun k2 => if k2 = ⟨.fixtures, 100⟩ then some ⟨some [7], 0, false, 0⟩ else none⟩,
       false) :=
  (gate_denial_degrades ⟨10, 3, 30, 5, 100, false⟩
    ⟨⟨40, 40, false⟩, fun _ => none, some 4,
     fun k2 => if k2 = ⟨.fixtures, 100⟩ then some ⟨some [7], 0, false, 0⟩ else none⟩
    ⟨.fixtures, 100⟩ 20 .FatalError).1
    ⟨some [7], 0, false, 0⟩ [7] .budget_exhausted
    ⟨⟨40, 40, false⟩, fun _ => none, some 4,
     fun k2 => if k2 = ⟨.fixtures, 100⟩ then some ⟨some [7], 0, false, 0⟩ else none⟩
    rfl rfl (Or.inr ⟨rfl, by decide⟩) rfl

/-- Counterexample for C4 as stated: from an empty store with a free
budget, a fatal upstream failure yields `Unavailable` even though a live
fetch was attempted, so `Unavailable` is not returned exactly when no
live fetch could be attempted. -/
theorem unavailable_despite_attempt :
    (getSnapshot ⟨10, 1, 30, 5, 100, false⟩
      ⟨⟨0, 40, false⟩, fun _ => none, none, fun _ => none⟩
      ⟨.fixtures, 100⟩ 5 .FatalError).1 = .Unavailable ∧
    (getSnapshot ⟨10, 1, 30, 5, 100, false⟩
      ⟨⟨0, 40, false⟩, fun _ => none, none, fun _ => none⟩
      ⟨.fixtures, 100⟩ 5 .FatalError).2.2 = true := by
  exact ⟨by decide, by decide⟩

end BallKnowledge
